import Mathlib

/-
Verification of the `cea608tott` element (cea608tott.rs): a converter from
CEA-608 closed-caption byte pairs to timed text (WebVTT / SRT / raw text).

The element's per-stream state machine (`sink_chain`, `sink_event`,
`change_state`) and the renderers (`create_vtt_header`, `split_time`,
`create_vtt_buffer`, `create_srt_buffer`, `create_raw_buffer`) are embedded
directly from the source.  The low-level CEA-608 decoder lives behind an FFI
boundary (`caption_frame_t` from libcaption); it is modelled as an oracle, see
`CaptionOracle` below.
-/

set_option linter.unusedVariables false

namespace Cea608ToTt

/-- Output format negotiated for the source pad, from `enum Format` in
cea608tott.rs. -/
inductive Format where
  | srt
  | vtt
  | raw
deriving DecidableEq, Repr

/-- Decoder status reported by the caption decoder, from `enum Status` in
cea608tott.rs (LIBCAPTION_OK / READY / CLEAR). -/
inductive Status where
  | ok
  | ready
  | clear
deriving DecidableEq, Repr

/-- Modelled from the spec: the external CEA-608 caption decoder state
(the `caption_frame_t` FFI object from libcaption, not part of this
repository's sources).  A deterministic decoder's state is determined by
the sequence of (cc_data, timestamp) pairs fed to it since its last
initialisation, so we represent the frame by exactly that history;
`CaptionFrame::default()` (a freshly initialised frame) is the empty
history. -/
structure CaptionFrame where
  history : List (Nat × Nat)
deriving DecidableEq, Repr

/-- `CaptionFrame::default()`: a freshly initialised caption frame. -/
def CaptionFrame.default : CaptionFrame := ⟨[]⟩

/-- Modelled from the spec: the behaviour of the external caption decoder
(`caption_frame_decode` / `caption_frame_to_text` in libcaption, behind FFI).
`decode h` is the status returned for the last pair of the fed history `h`
(`Except.error` models a decode failure); `to_text h` is the result of
rendering the frame with history `h` to text (`Except.error` models a
conversion failure).  All theorems about the state machine quantify over
this oracle. -/
structure CaptionOracle where
  decode : List (Nat × Nat) → Except Unit Status
  to_text : List (Nat × Nat) → Except Unit String

/-- Per-stream mutable state, from `struct State` in cea608tott.rs.
Timestamps (gst::ClockTime values) are nanosecond counts. -/
structure State where
  format : Option Format
  wrote_header : Bool
  caption_frame : CaptionFrame
  previous_text : Option (Nat × String)
  index : Nat
deriving DecidableEq, Repr

/-- `impl Default for State`. -/
def State.default : State :=
  { format := none
    wrote_header := false
    caption_frame := CaptionFrame.default
    previous_text := none
    index := 1 }

/-- An input buffer on the sink pad: optional presentation timestamp
(gst::ClockTime, in nanoseconds; `none` models ClockTime::none) and the
mapped payload bytes. -/
structure InBuffer where
  pts : Option Nat
  data : List Nat
deriving DecidableEq, Repr

/-- An output buffer pushed on the source pad: pts and duration metadata
(as set by set_pts / set_duration) plus the rendered payload bytes. -/
structure OutBuffer where
  pts : Option Nat
  duration : Option Nat
  data : String
deriving DecidableEq, Repr

/-- An output unit, tagged by which of the two pushes in the source produced
it: the one-time format header (`header_buffer`) or a subtitle cue. -/
inductive OutUnit where
  | header (b : OutBuffer)
  | cue (b : OutBuffer)
deriving DecidableEq, Repr

/-- Whether an output unit is a subtitle cue. -/
def OutUnit.isCue : OutUnit → Bool
  | .header _ => false
  | .cue _ => true

/-- Whether an output unit is a one-time format header. -/
def OutUnit.isHeader : OutUnit → Bool
  | .header _ => true
  | .cue _ => false

/-- The flow errors `sink_chain` can return: gst::FlowError::NotNegotiated
and gst::FlowError::Error. -/
inductive FlowError where
  | notNegotiated
  | error
deriving DecidableEq, Repr

/-- The result of `sink_chain`: Ok(FlowSuccess) or a FlowError. -/
abbrev FlowRes := Except FlowError Unit

/-- Left-pad the decimal representation of `n` with zeros to width `w`
(Rust's zero-padded width format specifier on unsigned integers). -/
def zpad (w : Nat) (n : Nat) : String :=
  let s := toString n
  String.mk (List.replicate (w - s.length) '0') ++ s

/-- `Cea608ToTt::split_time`: decompose a nanosecond timestamp into
(hours, minutes, seconds, milliseconds). -/
def split_time (time : Nat) : Nat × Nat × Nat × Nat :=
  let s := time / 1000000000
  let m := s / 60
  let h := m / 60
  (h, m % 60, s % 60, time % 1000000000 / 1000000)

/-- `Cea608ToTt::create_vtt_header`: the one-time WebVTT header buffer,
two writeln! lines "WEBVTT\r" and "\r", pts set to the given timestamp. -/
def create_vtt_header (timestamp : Nat) : OutBuffer :=
  { pts := some timestamp
    duration := none
    data := "WEBVTT\r\n" ++ "\r\n" }

/-- `Cea608ToTt::create_vtt_buffer`: one WebVTT cue.  Timing line
"HH:MM:SS.mmm --> HH:MM:SS.mmm\r", text line, blank line (writeln!
appends the \n after each \r). -/
def create_vtt_buffer (timestamp duration : Nat) (text : String) : OutBuffer :=
  let (h1, m1, s1, ms1) := split_time timestamp
  let (h2, m2, s2, ms2) := split_time (timestamp + duration)
  { pts := some timestamp
    duration := some duration
    data :=
      zpad 2 h1 ++ ":" ++ zpad 2 m1 ++ ":" ++ zpad 2 s1 ++ "." ++ zpad 3 ms1
        ++ " --> "
        ++ zpad 2 h2 ++ ":" ++ zpad 2 m2 ++ ":" ++ zpad 2 s2 ++ "." ++ zpad 3 ms2
        ++ "\r\n" ++ text ++ "\r\n" ++ "\r\n" }

/-- `Cea608ToTt::create_srt_buffer`: one SRT cue.  Index line (zero-padded
to at least two digits), timing line "H:MM:SS,mmm --> HH:MM:SS,mmm\r"
(the start hour field is not padded in the source format string), text
line, blank line. -/
def create_srt_buffer (timestamp duration : Nat) (index : Nat) (text : String) : OutBuffer :=
  let (h1, m1, s1, ms1) := split_time timestamp
  let (h2, m2, s2, ms2) := split_time (timestamp + duration)
  { pts := some timestamp
    duration := some duration
    data :=
      zpad 2 index ++ "\r\n"
        ++ toString h1 ++ ":" ++ zpad 2 m1 ++ ":" ++ zpad 2 s1 ++ "," ++ zpad 3 ms1
        ++ " --> "
        ++ zpad 2 h2 ++ ":" ++ zpad 2 m2 ++ ":" ++ zpad 2 s2 ++ "," ++ zpad 3 ms2
        ++ "\r\n" ++ text ++ "\r\n" ++ "\r\n" }

/-- `Cea608ToTt::create_raw_buffer`: the caption text bytes with pts and
duration attached as metadata only. -/
def create_raw_buffer (timestamp duration : Nat) (text : String) : OutBuffer :=
  { pts := some timestamp
    duration := some duration
    data := text }

/-- The three-way renderer dispatch on `format` used at the emission sites
in `sink_chain` and in the Eos branch of `sink_event`. -/
def renderCue (format : Format) (timestamp duration index : Nat) (text : String) : OutBuffer :=
  match format with
  | .vtt => create_vtt_buffer timestamp duration text
  | .srt => create_srt_buffer timestamp duration index text
  | .raw => create_raw_buffer timestamp duration text

/-- The header dispatch on `format` at the emission sites: only Vtt has a
one-time header. -/
def headerFor (format : Format) (timestamp : Nat) : Option OutBuffer :=
  match format with
  | .vtt => some (create_vtt_header timestamp)
  | .srt => none
  | .raw => none

/-- The 16-bit cc_data word handed to the decoder:
`(data[0] as u16) << 8 | data[1] as u16` (bytes taken mod 256 as u8). -/
def ccOf (b0 b1 : Nat) : Nat := b0 % 256 * 256 + b1 % 256

/-- The common tail of the emission paths (source lines 126-166 and the
matching part of the Eos branch): given the candidate `prev` taken from
`previous_text`, either return success with no output, or compute the
duration, emit the one-time header if not yet written, render the cue with
the current sequence index and increment it. -/
def emit_pending (format : Format) (buffer_pts : Nat) (prev : Option (Nat × String))
    (st : State) : FlowRes × State × List OutUnit :=
  match prev with
  | none => (Except.ok (), st, [])
  | some (timestamp, text) =>
    let duration := if timestamp < buffer_pts then buffer_pts - timestamp else 0
    let header_buffer := if st.wrote_header then none else headerFor format timestamp
    let buf := renderCue format timestamp duration st.index text
    (Except.ok (),
     { st with wrote_header := true, index := st.index + 1 },
     (header_buffer.map OutUnit.header).toList ++ [OutUnit.cue buf])

/-- `Cea608ToTt::sink_chain`, translated from the source: require a
negotiated format (else FlowError::NotNegotiated), require a pts (else
FlowError::Error), silently drop packets smaller than 2 bytes, feed the
byte pair to the decoder, and on Clear/Ready emit the previous pending
text (if any) closed at this buffer's timestamp.  Returns the flow
result, the updated state and the buffers pushed on the source pad. -/
def sink_chain (o : CaptionOracle) (st : State) (buffer : InBuffer) :
    FlowRes × State × List OutUnit :=
  match st.format with
  | none => (Except.error FlowError.notNegotiated, st, [])
  | some format =>
    match buffer.pts with
    | none => (Except.error FlowError.error, st, [])
    | some buffer_pts =>
      if buffer.data.length < 2 then
        (Except.ok (), st, [])
      else
        let cc := ccOf (buffer.data.getD 0 0) (buffer.data.getD 1 0)
        let hist := st.caption_frame.history ++ [(cc, buffer_pts)]
        let st1 := { st with caption_frame := ⟨hist⟩ }
        match o.decode hist with
        | Except.error _ => (Except.ok (), st1, [])
        | Except.ok Status.ok => (Except.ok (), st1, [])
        | Except.ok Status.clear =>
          emit_pending format buffer_pts st1.previous_text
            { st1 with previous_text := none }
        | Except.ok Status.ready =>
          match o.to_text hist with
          | Except.error _ => (Except.ok (), st1, [])
          | Except.ok text =>
            emit_pending format buffer_pts st1.previous_text
              { st1 with previous_text := some (buffer_pts, text) }

/-- A caps event pushed downstream by the Caps branch of `sink_event`:
a structure name plus the optional "format" field (only text/x-raw
carries `format=utf8`). -/
structure Caps where
  name : String
  fmtField : Option String
deriving DecidableEq, Repr

/-- The Caps branch of `Cea608ToTt::sink_event`: if `format` is already
set, succeed without touching anything; otherwise inspect the first
structure name of the (fixated) downstream caps, set `format`
accordingly and push the matching caps event downstream.  `none` models
the `unreachable!()` for a structure name outside the declared pad
template.  The result carries the boolean returned to the caller, the
updated state and the caps event pushed downstream (if any). -/
def sink_event_caps (st : State) (downstream : List String) :
    Option (Bool × State × Option Caps) :=
  if st.format.isSome then
    some (true, st, none)
  else
    match downstream with
    | [] => some (false, st, none)
    | name :: _ =>
      if name = "application/x-subtitle-vtt" then
        some (true, { st with format := some Format.vtt },
              some ⟨"application/x-subtitle-vtt", none⟩)
      else if name = "application/x-subtitle" then
        some (true, { st with format := some Format.srt },
              some ⟨"application/x-subtitle", none⟩)
      else if name = "text/x-raw" then
        some (true, { st with format := some Format.raw },
              some ⟨"text/x-raw", some "utf8"⟩)
      else
        none

/-- The FlushStop branch of `Cea608ToTt::sink_event`: reinitialise the
caption frame and drop any pending text; nothing is pushed downstream. -/
def sink_event_flush_stop (st : State) : State :=
  { st with caption_frame := CaptionFrame.default, previous_text := none }

/-- The Eos branch of `Cea608ToTt::sink_event`: if text is pending, emit
it as a final cue of duration 0, with the same one-time-header and
index-increment behaviour as `sink_chain`.  `none` models the panic of
`state.format.unwrap()` when `format` is unset. -/
def sink_event_eos (st : State) : Option (State × List OutUnit) :=
  match st.previous_text with
  | none => some (st, [])
  | some (timestamp, text) =>
    match st.format with
    | none => none
    | some format =>
      let header_buffer := if st.wrote_header then none else headerFor format timestamp
      let buf := renderCue format timestamp 0 st.index text
      some ({ st with previous_text := none, wrote_header := true, index := st.index + 1 },
            (header_buffer.map OutUnit.header).toList ++ [OutUnit.cue buf])

/-- The state-change transitions relevant to `Cea608ToTt::change_state`:
the two that reset the state to its defaults, and all others. -/
inductive StateChange where
  | readyToPaused
  | pausedToReady
  | other
deriving DecidableEq, Repr

/-- `Cea608ToTt::change_state`: entering or leaving the active state
reinitialises the whole `State` to its defaults. -/
def change_state (st : State) (transition : StateChange) : State :=
  match transition with
  | .readyToPaused => State.default
  | .pausedToReady => State.default
  | .other => st

/-- One operation of the element: a data buffer on the sink pad, or one
of the handled sink events, or a lifecycle state change. -/
inductive Op where
  | chain (buffer : InBuffer)
  | caps (downstream : List String)
  | flushStop
  | eos
  | stateChange (transition : StateChange)
deriving DecidableEq, Repr

/-- Whether an operation is a full reset of the stream state. -/
def isFullReset : Op → Bool
  | .stateChange .readyToPaused => true
  | .stateChange .pausedToReady => true
  | _ => false

/-- Apply one operation to the state, returning the new state and the
buffers pushed on the source pad.  `none` models a panic
(`unreachable!()` in the Caps branch, `unwrap()` in the Eos branch). -/
def applyOp (o : CaptionOracle) (st : State) : Op → Option (State × List OutUnit)
  | .chain buffer =>
    let r := sink_chain o st buffer
    some (r.2.1, r.2.2)
  | .caps downstream =>
    match sink_event_caps st downstream with
    | none => none
    | some (_, st', _) => some (st', [])
  | .flushStop => some (sink_event_flush_stop st, [])
  | .eos => sink_event_eos st
  | .stateChange t => some (change_state st t, [])

/-- Run a sequence of operations, collecting all buffers pushed on the
source pad in order. -/
def run (o : CaptionOracle) (st : State) : List Op → Option (State × List OutUnit)
  | [] => some (st, [])
  | op :: ops =>
    match applyOp o st op with
    | none => none
    | some (st', outs) =>
      match run o st' ops with
      | none => none
      | some (st'', outs') => some (st'', outs ++ outs')

/-- A concrete decoder oracle used by witnesses: the first two pairs fed
each complete a frame (Ready), rendering to "HELLO" and then "WORLD";
later pairs are absorbed (Ok). -/
def demoOracle : CaptionOracle where
  decode h :=
    match h.length with
    | 1 => Except.ok Status.ready
    | 2 => Except.ok Status.ready
    | _ => Except.ok Status.ok
  to_text h :=
    match h.length with
    | 1 => Except.ok "HELLO"
    | _ => Except.ok "WORLD"

end Cea608ToTt

namespace Cea608ToTt

/-! ## Helper lemmas -/

/-- The cue renderer always stamps the cue's start and duration as buffer
metadata, for every format. -/
theorem renderCue_meta (f : Format) (ts dur idx : Nat) (tx : String) :
    (renderCue f ts dur idx tx).pts = some ts ∧
    (renderCue f ts dur idx tx).duration = some dur := by
  cases f <;>
    simp [renderCue, create_vtt_buffer, create_srt_buffer, create_raw_buffer, split_time]

/-- `emit_pending` never returns a flow error. -/
theorem emit_pending_fst (f : Format) (p : Nat) (prev : Option (Nat × String)) (st : State) :
    (emit_pending f p prev st).1 = Except.ok () := by
  cases prev with
  | none => rfl
  | some pr => cases pr; rfl

/-- `emit_pending` does not touch the `format` field. -/
theorem emit_pending_format (f : Format) (p : Nat) (prev : Option (Nat × String)) (st : State) :
    (emit_pending f p prev st).2.1.format = st.format := by
  cases prev with
  | none => rfl
  | some pr => cases pr; rfl

/-- `sink_chain` never changes the negotiated `format`. -/
theorem sink_chain_format (o : CaptionOracle) (st : State) (buffer : InBuffer) :
    (sink_chain o st buffer).2.1.format = st.format := by
  simp only [sink_chain]
  split
  · rfl
  · split
    · rfl
    · split
      · rfl
      · split
        · rfl
        · rfl
        · exact emit_pending_format _ _ _ _
        · split
          · rfl
          · exact emit_pending_format _ _ _ _

end Cea608ToTt

namespace Cea608ToTt

/-! ## C8: the SRT renderer -/

/-- C8: for every timestamp, duration, index and text, the SRT renderer
produces exactly the index line (zero-padded to at least two digits), the
timing line whose start hours field is not zero-padded and whose end hours
field is zero-padded to two digits, joined by " --> ", then the text line
and a blank line, all terminated by "\r\n"; minutes and seconds of both
split times lie below 60 and milliseconds below 1000; in particular index
1, start 1.0s, end 2.5s, text "HELLO" yields
"01\r\n0:00:01,000 --> 00:00:02,500\r\nHELLO\r\n\r\n". -/
theorem c8_srt_renderer_format (timestamp duration index : Nat) (text : String) :
    create_srt_buffer timestamp duration index text =
      { pts := some timestamp
        duration := some duration
        data :=
          zpad 2 index ++ "\r\n"
            ++ toString (split_time timestamp).1 ++ ":"
            ++ zpad 2 (split_time timestamp).2.1 ++ ":"
            ++ zpad 2 (split_time timestamp).2.2.1 ++ ","
            ++ zpad 3 (split_time timestamp).2.2.2
            ++ " --> "
            ++ zpad 2 (split_time (timestamp + duration)).1 ++ ":"
            ++ zpad 2 (split_time (timestamp + duration)).2.1 ++ ":"
            ++ zpad 2 (split_time (timestamp + duration)).2.2.1 ++ ","
            ++ zpad 3 (split_time (timestamp + duration)).2.2.2
            ++ "\r\n" ++ text ++ "\r\n" ++ "\r\n" } ∧
    (split_time timestamp).2.1 < 60 ∧ (split_time timestamp).2.2.1 < 60 ∧
    (split_time timestamp).2.2.2 < 1000 ∧
    (split_time (timestamp + duration)).2.1 < 60 ∧
    (split_time (timestamp + duration)).2.2.1 < 60 ∧
    (split_time (timestamp + duration)).2.2.2 < 1000 ∧
    create_srt_buffer 1000000000 1500000000 1 "HELLO" =
      { pts := some 1000000000
        duration := some 1500000000
        data := "01\r\n0:00:01,000 --> 00:00:02,500\r\nHELLO\r\n\r\n" } := by
  refine ⟨rfl, ?_, ?_, ?_, ?_, ?_, ?_, by rfl⟩ <;> simp only [split_time] <;> omega

/-! ## C4: flush-stop -/

/-- C4: processing a flush-stop event emits no output, reinitialises the
caption frame, clears the pending text, and preserves `format`,
`wrote_header` and `index` exactly. -/
theorem c4_flush_stop_resets_decoder_only (o : CaptionOracle) (st : State) :
    applyOp o st Op.flushStop =
      some ({ format := st.format
              wrote_header := st.wrote_header
              caption_frame := CaptionFrame.default
              previous_text := none
              index := st.index }, []) := rfl

/-! ## C5: caps idempotence -/

/-- C5: a caps event arriving while `format` is already negotiated returns
success, leaves the whole state (format, pending, wrote_header, index)
unchanged and pushes no caps event downstream. -/
theorem c5_caps_idempotent (st : State) (downstream : List String) (f : Format)
    (h : st.format = some f) :
    sink_event_caps st downstream = some (true, st, none) := by
  simp [sink_event_caps, h]

theorem c5_caps_idempotent_witness :
    ({ State.default with format := some Format.srt } : State).format = some Format.srt ∧
    sink_event_caps { State.default with format := some Format.srt }
        ["application/x-subtitle-vtt"] =
      some (true, { State.default with format := some Format.srt }, none) :=
  ⟨rfl, c5_caps_idempotent _ _ Format.srt rfl⟩

/-! ## C6: the stream-fatal errors of per-buffer processing -/

/-- C6: `sink_chain` fails with the distinct NotNegotiated error exactly
when `format` is unset, fails with Error when the buffer carries no
timestamp (checked only once format is set), both failures leave the
state unmodified and push nothing, and every other path of per-buffer
processing returns flow success. -/
theorem c6_stream_fatal_errors (o : CaptionOracle) (st : State) (buffer : InBuffer) :
    (st.format = none →
      sink_chain o st buffer = (Except.error FlowError.notNegotiated, st, [])) ∧
    (st.format.isSome = true → buffer.pts = none →
      sink_chain o st buffer = (Except.error FlowError.error, st, [])) ∧
    (st.format.isSome = true → buffer.pts.isSome = true →
      (sink_chain o st buffer).1 = Except.ok ()) ∧
    FlowError.notNegotiated ≠ FlowError.error := by
  refine ⟨?_, ?_, ?_, by decide⟩
  · intro h
    simp [sink_chain, h]
  · intro hf hp
    rcases Option.isSome_iff_exists.mp hf with ⟨f, hfe⟩
    simp [sink_chain, hfe, hp]
  · intro hf hp
    rcases Option.isSome_iff_exists.mp hf with ⟨f, hfe⟩
    rcases Option.isSome_iff_exists.mp hp with ⟨t, hpe⟩
    simp only [sink_chain, hfe, hpe]
    split
    · rfl
    · split
      · rfl
      · rfl
      · exact emit_pending_fst _ _ _ _
      · split
        · rfl
        · exact emit_pending_fst _ _ _ _

theorem c6_stream_fatal_errors_witness :
    (State.default.format = none ∧
      sink_chain demoOracle State.default { pts := some 0, data := [171, 205] } =
        (Except.error FlowError.notNegotiated, State.default, [])) ∧
    (({ State.default with format := some Format.vtt } : State).format.isSome = true ∧
      sink_chain demoOracle { State.default with format := some Format.vtt }
          { pts := none, data := [171, 205] } =
        (Except.error FlowError.error, { State.default with format := some Format.vtt }, [])) ∧
    ((sink_chain demoOracle { State.default with format := some Format.vtt }
        { pts := some 0, data := [171, 205] }).1 = Except.ok ()) :=
  ⟨⟨rfl, (c6_stream_fatal_errors demoOracle State.default
      { pts := some 0, data := [171, 205] }).1 rfl⟩,
   ⟨rfl, (c6_stream_fatal_errors demoOracle { State.default with format := some Format.vtt }
      { pts := none, data := [171, 205] }).2.1 rfl rfl⟩,
   (c6_stream_fatal_errors demoOracle { State.default with format := some Format.vtt }
      { pts := some 0, data := [171, 205] }).2.2.1 rfl rfl⟩

/-! ## C7: undersized buffers -/

/-- C7 as stated is false: a 1-byte buffer is not accepted in *every*
state, because the negotiation and timestamp checks run first.  In the
default (un-negotiated) state a timestamped 1-byte buffer is rejected
with NotNegotiated rather than dropped with success. -/
theorem c7_undersized_counterexample :
    (sink_chain demoOracle State.default { pts := some 0, data := [171] }).1 =
      Except.error FlowError.notNegotiated ∧
    (Except.error FlowError.notNegotiated : FlowRes) ≠ Except.ok () :=
  ⟨rfl, fun h => Except.noConfusion h⟩

/-- C7 amended: in any state whose format is negotiated, a timestamped
buffer with fewer than 2 payload bytes is silently dropped: flow success,
no output and no state change at all. -/
theorem c7_undersized_dropped (o : CaptionOracle) (st : State) (buffer : InBuffer)
    (f : Format) (t : Nat) (hf : st.format = some f) (hp : buffer.pts = some t)
    (hlen : buffer.data.length < 2) :
    sink_chain o st buffer = (Except.ok (), st, []) := by
  simp [sink_chain, hf, hp, hlen]

theorem c7_undersized_dropped_witness :
    ({ State.default with format := some Format.raw } : State).format = some Format.raw ∧
    (InBuffer.mk (some 5) [171]).pts = some 5 ∧
    (InBuffer.mk (some 5) [171]).data.length < 2 ∧
    sink_chain demoOracle { State.default with format := some Format.raw }
        { pts := some 5, data := [171] } =
      (Except.ok (), { State.default with format := some Format.raw }, []) :=
  ⟨rfl, rfl, by decide,
   c7_undersized_dropped demoOracle _ _ Format.raw 5 rfl rfl (by decide)⟩

end Cea608ToTt

namespace Cea608ToTt

/-! ## C1: two Ready frames followed by end-of-stream -/

/-- C1: starting from a freshly negotiated state, two buffers whose byte
pairs decode to Ready with texts T1 (at t1) and T2 (at t2 > t1) followed
by end-of-stream emit exactly two cues: nothing on the first buffer, a
single cue (T1, start t1, duration t2 - t1) on the second buffer
(preceded only by the one-time header when the format has one), and a
single cue (T2, start t2, duration 0) on end-of-stream. -/
theorem c1_two_ready_then_eos (o : CaptionOracle) (f : Format) (t1 t2 : Nat)
    (T1 T2 : String) (b0 b1 b2 b3 : Nat) (r1 r2 : List Nat)
    (hlt : t1 < t2)
    (hdec1 : o.decode [(ccOf b0 b1, t1)] = Except.ok Status.ready)
    (htxt1 : o.to_text [(ccOf b0 b1, t1)] = Except.ok T1)
    (hdec2 : o.decode [(ccOf b0 b1, t1), (ccOf b2 b3, t2)] = Except.ok Status.ready)
    (htxt2 : o.to_text [(ccOf b0 b1, t1), (ccOf b2 b3, t2)] = Except.ok T2) :
    sink_chain o
        { format := some f, wrote_header := false, caption_frame := ⟨[]⟩,
          previous_text := none, index := 1 }
        { pts := some t1, data := b0 :: b1 :: r1 } =
      (Except.ok (),
       { format := some f, wrote_header := false,
         caption_frame := ⟨[(ccOf b0 b1, t1)]⟩,
         previous_text := some (t1, T1), index := 1 },
       []) ∧
    sink_chain o
        { format := some f, wrote_header := false,
          caption_frame := ⟨[(ccOf b0 b1, t1)]⟩,
          previous_text := some (t1, T1), index := 1 }
        { pts := some t2, data := b2 :: b3 :: r2 } =
      (Except.ok (),
       { format := some f, wrote_header := true,
         caption_frame := ⟨[(ccOf b0 b1, t1), (ccOf b2 b3, t2)]⟩,
         previous_text := some (t2, T2), index := 2 },
       ((headerFor f t1).map OutUnit.header).toList
         ++ [OutUnit.cue (renderCue f t1 (t2 - t1) 1 T1)]) ∧
    sink_event_eos
        { format := some f, wrote_header := true,
          caption_frame := ⟨[(ccOf b0 b1, t1), (ccOf b2 b3, t2)]⟩,
          previous_text := some (t2, T2), index := 2 } =
      some ({ format := some f, wrote_header := true,
              caption_frame := ⟨[(ccOf b0 b1, t1), (ccOf b2 b3, t2)]⟩,
              previous_text := none, index := 3 },
            [OutUnit.cue (renderCue f t2 0 2 T2)]) := by
  refine ⟨?_, ?_, ?_⟩
  · simp [sink_chain, hdec1, htxt1]
    rw [if_neg (by omega)]
    simp [emit_pending]
  · simp [sink_chain, hdec2, htxt2]
    rw [if_neg (by omega)]
    simp [emit_pending, hlt]
  · simp [sink_event_eos]

end Cea608ToTt

namespace Cea608ToTt

theorem c1_two_ready_then_eos_witness :
    1000000000 < 2500000000 ∧
    demoOracle.decode [(ccOf 171 205, 1000000000)] = Except.ok Status.ready ∧
    demoOracle.to_text [(ccOf 171 205, 1000000000)] = Except.ok "HELLO" ∧
    demoOracle.decode [(ccOf 171 205, 1000000000), (ccOf 171 205, 2500000000)] =
      Except.ok Status.ready ∧
    demoOracle.to_text [(ccOf 171 205, 1000000000), (ccOf 171 205, 2500000000)] =
      Except.ok "WORLD" ∧
    (sink_chain demoOracle
        { format := some Format.vtt, wrote_header := false, caption_frame := ⟨[]⟩,
          previous_text := none, index := 1 }
        { pts := some 1000000000, data := [171, 205] } =
      (Except.ok (),
       { format := some Format.vtt, wrote_header := false,
         caption_frame := ⟨[(ccOf 171 205, 1000000000)]⟩,
         previous_text := some (1000000000, "HELLO"), index := 1 },
       []) ∧
    sink_chain demoOracle
        { format := some Format.vtt, wrote_header := false,
          caption_frame := ⟨[(ccOf 171 205, 1000000000)]⟩,
          previous_text := some (1000000000, "HELLO"), index := 1 }
        { pts := some 2500000000, data := [171, 205] } =
      (Except.ok (),
       { format := some Format.vtt, wrote_header := true,
         caption_frame := ⟨[(ccOf 171 205, 1000000000), (ccOf 171 205, 2500000000)]⟩,
         previous_text := some (2500000000, "WORLD"), index := 2 },
       ((headerFor Format.vtt 1000000000).map OutUnit.header).toList
         ++ [OutUnit.cue
              (renderCue Format.vtt 1000000000 (2500000000 - 1000000000) 1 "HELLO")]) ∧
    sink_event_eos
        { format := some Format.vtt, wrote_header := true,
          caption_frame := ⟨[(ccOf 171 205, 1000000000), (ccOf 171 205, 2500000000)]⟩,
          previous_text := some (2500000000, "WORLD"), index := 2 } =
      some ({ format := some Format.vtt, wrote_header := true,
              caption_frame := ⟨[(ccOf 171 205, 1000000000), (ccOf 171 205, 2500000000)]⟩,
              previous_text := none, index := 3 },
            [OutUnit.cue (renderCue Format.vtt 2500000000 0 2 "WORLD")])) :=
  ⟨by decide, rfl, rfl, rfl, rfl,
   c1_two_ready_then_eos demoOracle Format.vtt 1000000000 2500000000 "HELLO" "WORLD"
     171 205 171 205 [] [] (by decide) rfl rfl rfl rfl⟩

end Cea608ToTt

namespace Cea608ToTt

/-! ## C2: cue durations -/

/-- A cue is never among the optional header buffers. -/
theorem cue_not_in_header_toList (oh : Option OutBuffer) (b : OutBuffer) :
    OutUnit.cue b ∈ (oh.map OutUnit.header).toList → False := by
  cases oh <;> simp

/-- Any cue in the output of `emit_pending` is the pending text rendered
with the computed duration and the current index. -/
theorem emit_pending_cue_mem (f : Format) (p : Nat) (prev : Option (Nat × String))
    (st : State) (b : OutBuffer)
    (hb : OutUnit.cue b ∈ (emit_pending f p prev st).2.2) :
    ∃ ts tx, prev = some (ts, tx) ∧
      b = renderCue f ts (if ts < p then p - ts else 0) st.index tx := by
  cases prev with
  | none => simp [emit_pending] at hb
  | some pr =>
    obtain ⟨ts, tx⟩ := pr
    simp only [emit_pending, List.mem_append] at hb
    rcases hb with hb | hb
    · exact absurd hb (fun hh => cue_not_in_header_toList _ _ hh)
    · simp at hb
      exact ⟨ts, tx, rfl, hb⟩

/-- C2: every cue emitted by per-buffer processing carries the duration
(buffer timestamp - cue start timestamp) when the buffer timestamp is
strictly greater than the cue's start, and 0 otherwise. -/
theorem c2_cue_duration (o : CaptionOracle) (st : State) (buffer : InBuffer) (b : OutBuffer)
    (hb : OutUnit.cue b ∈ (sink_chain o st buffer).2.2) :
    ∃ t s, buffer.pts = some t ∧ b.pts = some s ∧
      b.duration = some (if s < t then t - s else 0) := by
  rcases hf : st.format with _ | f
  · simp [sink_chain, hf] at hb
  · rcases hp : buffer.pts with _ | t
    · simp [sink_chain, hf, hp] at hb
    · simp only [sink_chain, hf, hp] at hb
      split at hb
      · simp at hb
      · split at hb
        · simp at hb
        · simp at hb
        · obtain ⟨ts, tx, -, hbe⟩ := emit_pending_cue_mem _ _ _ _ _ hb
          subst hbe
          exact ⟨t, ts, rfl, (renderCue_meta f ts _ _ tx).1,
            by rw [(renderCue_meta f ts _ _ tx).2]⟩
        · split at hb
          · simp at hb
          · obtain ⟨ts, tx, -, hbe⟩ := emit_pending_cue_mem _ _ _ _ _ hb
            subst hbe
            exact ⟨t, ts, rfl, (renderCue_meta f ts _ _ tx).1,
              by rw [(renderCue_meta f ts _ _ tx).2]⟩

theorem c2_cue_duration_witness :
    OutUnit.cue (renderCue Format.raw 1000000000 1500000000 1 "HELLO") ∈
      (sink_chain demoOracle
        { format := some Format.raw, wrote_header := false, caption_frame := ⟨[]⟩,
          previous_text := some (1000000000, "HELLO"), index := 1 }
        { pts := some 2500000000, data := [171, 205] }).2.2 ∧
    ∃ t s,
      (InBuffer.mk (some 2500000000) [171, 205]).pts = some t ∧
      (renderCue Format.raw 1000000000 1500000000 1 "HELLO").pts = some s ∧
      (renderCue Format.raw 1000000000 1500000000 1 "HELLO").duration =
        some (if s < t then t - s else 0) :=
  ⟨by decide,
   c2_cue_duration demoOracle
     { format := some Format.raw, wrote_header := false, caption_frame := ⟨[]⟩,
       previous_text := some (1000000000, "HELLO"), index := 1 }
     { pts := some 2500000000, data := [171, 205] }
     (renderCue Format.raw 1000000000 1500000000 1 "HELLO") (by decide)⟩

end Cea608ToTt

namespace Cea608ToTt

/-! ## Shape of the outputs of one operation -/

/-- `emit_pending` with no candidate emits nothing. -/
theorem emit_pending_none (f : Format) (p : Nat) (st : State) :
    emit_pending f p none st = (Except.ok (), st, []) := rfl

/-- `emit_pending` with a candidate emits the optional one-time header and
exactly one cue, sets `wrote_header` and increments `index`. -/
theorem emit_pending_some (f : Format) (p ts : Nat) (tx : String) (st : State) :
    emit_pending f p (some (ts, tx)) st =
      (Except.ok (),
       { st with wrote_header := true, index := st.index + 1 },
       ((if st.wrote_header then none else headerFor f ts).map OutUnit.header).toList
         ++ [OutUnit.cue (renderCue f ts (if ts < p then p - ts else 0) st.index tx)]) := rfl

/-- The emitted block is [header, cue] exactly when the header was not yet
written and the format is Vtt, and [cue] otherwise. -/
theorem emission_block_shape (w : Bool) (f : Format) (ts : Nat) (cb : OutBuffer) :
    (w = false ∧ f = Format.vtt ∧
       ∃ hb, ((if w then none else headerFor f ts).map OutUnit.header).toList
               ++ [OutUnit.cue cb] = [OutUnit.header hb, OutUnit.cue cb]) ∨
    ((w = true ∨ f ≠ Format.vtt) ∧
       ((if w then none else headerFor f ts).map OutUnit.header).toList
         ++ [OutUnit.cue cb] = [OutUnit.cue cb]) := by
  cases w
  · cases f
    · exact Or.inr ⟨Or.inr (by decide), rfl⟩
    · exact Or.inl ⟨rfl, rfl, create_vtt_header ts, rfl⟩
    · exact Or.inr ⟨Or.inr (by decide), rfl⟩
  · exact Or.inr ⟨Or.inl rfl, rfl⟩

/-- The two possible effects of `sink_chain` on state and outputs: either
no output with `wrote_header` and `index` untouched, or (only with a
negotiated format) a block of one optional one-time header plus exactly
one cue, with `wrote_header` set and `index` incremented. -/
theorem sink_chain_shape (o : CaptionOracle) (st : State) (buffer : InBuffer) :
    ((sink_chain o st buffer).2.2 = [] ∧
     (sink_chain o st buffer).2.1.wrote_header = st.wrote_header ∧
     (sink_chain o st buffer).2.1.index = st.index) ∨
    (∃ f ts cb, st.format = some f ∧
     (sink_chain o st buffer).2.1.wrote_header = true ∧
     (sink_chain o st buffer).2.1.index = st.index + 1 ∧
     (sink_chain o st buffer).2.2 =
       ((if st.wrote_header then none else headerFor f ts).map OutUnit.header).toList
         ++ [OutUnit.cue cb]) := by
  rcases hf : st.format with _ | f
  · exact Or.inl (by simp [sink_chain, hf])
  · rcases hp : buffer.pts with _ | t
    · exact Or.inl (by simp [sink_chain, hf, hp])
    · simp only [sink_chain, hf, hp]
      split
      · exact Or.inl ⟨rfl, rfl, rfl⟩
      · split
        · exact Or.inl ⟨rfl, rfl, rfl⟩
        · exact Or.inl ⟨rfl, rfl, rfl⟩
        · rcases hprev : st.previous_text with _ | pr
          · left
            simp [emit_pending, hprev]
          · obtain ⟨ts, tx⟩ := pr
            right
            exact ⟨f, ts, renderCue f ts (if ts < t then t - ts else 0) st.index tx, rfl,
              by simp [emit_pending, hprev], by simp [emit_pending, hprev],
              by simp [emit_pending, hprev]⟩
        · split
          · exact Or.inl ⟨rfl, rfl, rfl⟩
          · rcases hprev : st.previous_text with _ | pr
            · left
              simp [emit_pending, hprev]
            · obtain ⟨ts, tx⟩ := pr
              right
              exact ⟨f, ts, renderCue f ts (if ts < t then t - ts else 0) st.index tx, rfl,
                by simp [emit_pending, hprev], by simp [emit_pending, hprev],
                by simp [emit_pending, hprev]⟩

end Cea608ToTt

namespace Cea608ToTt

/-- The Caps branch never touches `wrote_header`, `index` or the pending
text, and is the identity on an already-negotiated state. -/
theorem sink_event_caps_shape (st : State) (downstream : List String)
    (b : Bool) (st2 : State) (evt : Option Caps)
    (h : sink_event_caps st downstream = some (b, st2, evt)) :
    st2.wrote_header = st.wrote_header ∧ st2.index = st.index ∧
    st2.previous_text = st.previous_text ∧
    (st.format.isSome = true → st2 = st) := by
  simp only [sink_event_caps] at h
  split at h
  · rename_i hiso
    simp only [Option.some.injEq, Prod.mk.injEq] at h
    obtain ⟨-, h2, -⟩ := h
    subst h2
    exact ⟨rfl, rfl, rfl, fun _ => rfl⟩
  · rename_i hiso
    split at h
    · simp only [Option.some.injEq, Prod.mk.injEq] at h
      obtain ⟨-, h2, -⟩ := h
      subst h2
      exact ⟨rfl, rfl, rfl, fun hx => absurd hx hiso⟩
    · split at h
      · simp only [Option.some.injEq, Prod.mk.injEq] at h
        obtain ⟨-, h2, -⟩ := h
        subst h2
        exact ⟨rfl, rfl, rfl, fun hx => absurd hx hiso⟩
      · split at h
        · simp only [Option.some.injEq, Prod.mk.injEq] at h
          obtain ⟨-, h2, -⟩ := h
          subst h2
          exact ⟨rfl, rfl, rfl, fun hx => absurd hx hiso⟩
        · split at h
          · simp only [Option.some.injEq, Prod.mk.injEq] at h
            obtain ⟨-, h2, -⟩ := h
            subst h2
            exact ⟨rfl, rfl, rfl, fun hx => absurd hx hiso⟩
          · exact Option.noConfusion h

/-- The two possible effects of any non-reset operation: either no output
and `wrote_header`/`index` untouched (with `format` preserved whenever it
was already set), or -- only with a negotiated format -- a block of one
optional one-time header plus exactly one cue, with `wrote_header` set,
`index` incremented and `format` unchanged. -/
theorem applyOp_shape (o : CaptionOracle) (st : State) (op : Op)
    (st' : State) (outs : List OutUnit)
    (hnr : isFullReset op = false)
    (h : applyOp o st op = some (st', outs)) :
    (outs = [] ∧ st'.wrote_header = st.wrote_header ∧ st'.index = st.index ∧
       (st.format.isSome = true → st'.format = st.format)) ∨
    (∃ f ts cb, st.format = some f ∧ st'.format = some f ∧ st'.wrote_header = true ∧
       st'.index = st.index + 1 ∧
       outs = ((if st.wrote_header then none else headerFor f ts).map OutUnit.header).toList
         ++ [OutUnit.cue cb]) := by
  cases op with
  | chain buffer =>
    simp only [applyOp, Option.some.injEq, Prod.mk.injEq] at h
    obtain ⟨h1, h2⟩ := h
    subst h1
    subst h2
    rcases sink_chain_shape o st buffer with ⟨l1, l2, l3⟩ | ⟨f, ts, cb, hsf, hw, hi, ho⟩
    · exact Or.inl ⟨l1, l2, l3, fun _ => sink_chain_format o st buffer⟩
    · exact Or.inr ⟨f, ts, cb, hsf, by rw [sink_chain_format o st buffer, hsf], hw, hi, ho⟩
  | caps downstream =>
    simp only [applyOp] at h
    rcases hc : sink_event_caps st downstream with _ | pr
    · rw [hc] at h
      simp at h
    · obtain ⟨b, st2, evt⟩ := pr
      rw [hc] at h
      simp only [Option.some.injEq, Prod.mk.injEq] at h
      obtain ⟨h1, h2⟩ := h
      subst h1
      subst h2
      obtain ⟨e1, e2, e3, e4⟩ := sink_event_caps_shape st downstream b st2 evt hc
      exact Or.inl ⟨rfl, e1, e2, fun hx => by rw [e4 hx]⟩
  | flushStop =>
    simp only [applyOp, Option.some.injEq, Prod.mk.injEq] at h
    obtain ⟨h1, h2⟩ := h
    subst h1
    subst h2
    exact Or.inl ⟨rfl, rfl, rfl, fun _ => rfl⟩
  | eos =>
    simp only [applyOp] at h
    rcases hprev : st.previous_text with _ | pr
    · simp only [sink_event_eos, hprev, Option.some.injEq, Prod.mk.injEq] at h
      obtain ⟨h1, h2⟩ := h
      subst h1
      subst h2
      exact Or.inl ⟨rfl, rfl, rfl, fun _ => rfl⟩
    · obtain ⟨ts, tx⟩ := pr
      rcases hf : st.format with _ | f
      · simp only [sink_event_eos, hprev, hf] at h
        exact Option.noConfusion h
      · simp only [sink_event_eos, hprev, hf, Option.some.injEq, Prod.mk.injEq] at h
        obtain ⟨h1, h2⟩ := h
        subst h1
        subst h2
        exact Or.inr ⟨f, ts, renderCue f ts 0 st.index tx, rfl, by simp [hf], rfl, rfl, rfl⟩
  | stateChange t =>
    cases t with
    | readyToPaused => simp [isFullReset] at hnr
    | pausedToReady => simp [isFullReset] at hnr
    | other =>
      simp only [applyOp, change_state, Option.some.injEq, Prod.mk.injEq] at h
      obtain ⟨h1, h2⟩ := h
      subst h1
      subst h2
      exact Or.inl ⟨rfl, rfl, rfl, fun _ => rfl⟩

end Cea608ToTt

namespace Cea608ToTt

/-! ## C9: the sequence index -/

/-- C9: the sequence index starts at 1 in the default state (hence after
every full reset), is set back to 1 by a full reset, and otherwise grows
by exactly the number of cues emitted by the operation (1 per cue,
including the final end-of-stream cue; header emissions do not consume an
index). -/
theorem c9_index_per_cue (o : CaptionOracle) (st : State) (op : Op)
    (st' : State) (outs : List OutUnit)
    (h : applyOp o st op = some (st', outs)) :
    State.default.index = 1 ∧
    (isFullReset op = true → st'.index = 1) ∧
    (isFullReset op = false →
      st'.index = st.index + (outs.filter OutUnit.isCue).length) := by
  refine ⟨rfl, ?_, ?_⟩
  · intro hr
    cases op with
    | chain buffer => simp [isFullReset] at hr
    | caps downstream => simp [isFullReset] at hr
    | flushStop => simp [isFullReset] at hr
    | eos => simp [isFullReset] at hr
    | stateChange t =>
      cases t with
      | readyToPaused =>
        simp only [applyOp, change_state, Option.some.injEq, Prod.mk.injEq] at h
        obtain ⟨h1, -⟩ := h
        subst h1
        rfl
      | pausedToReady =>
        simp only [applyOp, change_state, Option.some.injEq, Prod.mk.injEq] at h
        obtain ⟨h1, -⟩ := h
        subst h1
        rfl
      | other => simp [isFullReset] at hr
  · intro hnr
    rcases applyOp_shape o st op st' outs hnr h with ⟨ho, -, hi, -⟩ | ⟨f, ts, cb, -, -, -, hi, ho⟩
    · subst ho
      simpa using hi
    · subst ho
      rw [hi]
      congr 1
      cases hoh : (if st.wrote_header then none else headerFor f ts) with
      | none => simp [OutUnit.isCue]
      | some hb => simp [OutUnit.isCue]

theorem c9_index_per_cue_witness :
    applyOp demoOracle
        { format := some Format.raw, wrote_header := true, caption_frame := ⟨[]⟩,
          previous_text := some (5, "X"), index := 1 } Op.eos =
      some ({ format := some Format.raw, wrote_header := true, caption_frame := ⟨[]⟩,
              previous_text := none, index := 2 },
            [OutUnit.cue (renderCue Format.raw 5 0 1 "X")]) ∧
    isFullReset Op.eos = false ∧
    ({ format := some Format.raw, wrote_header := true, caption_frame := (⟨[]⟩ : CaptionFrame),
       previous_text := none, index := 2 } : State).index =
      ({ format := some Format.raw, wrote_header := true, caption_frame := (⟨[]⟩ : CaptionFrame),
         previous_text := some (5, "X"), index := 1 } : State).index +
        (([OutUnit.cue (renderCue Format.raw 5 0 1 "X")]).filter OutUnit.isCue).length :=
  ⟨rfl, rfl,
   (c9_index_per_cue demoOracle
      { format := some Format.raw, wrote_header := true, caption_frame := ⟨[]⟩,
        previous_text := some (5, "X"), index := 1 } Op.eos
      { format := some Format.raw, wrote_header := true, caption_frame := ⟨[]⟩,
        previous_text := none, index := 2 }
      [OutUnit.cue (renderCue Format.raw 5 0 1 "X")] rfl).2.2 rfl⟩

/-! ## C10: pending text implies negotiated format -/

/-- The implicit invariant of the element's state: whenever some text is
pending, the format has been negotiated. -/
def StateInv (st : State) : Prop :=
  st.previous_text.isSome = true → st.format.isSome = true

/-- C10: every operation preserves the invariant that a pending text
implies a negotiated format, and under that invariant the Eos handler's
unchecked `format.unwrap()` can never panic. -/
theorem c10_pending_implies_negotiated (o : CaptionOracle) (st : State) (op : Op)
    (hInv : StateInv st) :
    (∀ st' outs, applyOp o st op = some (st', outs) → StateInv st') ∧
    (sink_event_eos st).isSome = true := by
  constructor
  · intro st' outs h
    cases op with
    | chain buffer =>
      simp only [applyOp, Option.some.injEq, Prod.mk.injEq] at h
      obtain ⟨h1, -⟩ := h
      subst h1
      rcases hf : st.format with _ | f
      · have hst : sink_chain o st buffer = (Except.error FlowError.notNegotiated, st, []) := by
          simp [sink_chain, hf]
        rw [hst]
        exact hInv
      · intro hp
        rw [sink_chain_format o st buffer, hf]
        rfl
    | caps downstream =>
      simp only [applyOp] at h
      rcases hc : sink_event_caps st downstream with _ | pr
      · rw [hc] at h
        simp at h
      · obtain ⟨b, st2, evt⟩ := pr
        rw [hc] at h
        simp only [Option.some.injEq, Prod.mk.injEq] at h
        obtain ⟨h1, -⟩ := h
        subst h1
        obtain ⟨-, -, e3, e4⟩ := sink_event_caps_shape st downstream b st2 evt hc
        intro hp
        rw [e3] at hp
        have hfs : st.format.isSome = true := hInv hp
        rw [e4 hfs]
        exact hfs
    | flushStop =>
      simp only [applyOp, Option.some.injEq, Prod.mk.injEq] at h
      obtain ⟨h1, -⟩ := h
      subst h1
      intro hp
      simp [sink_event_flush_stop] at hp
    | eos =>
      simp only [applyOp] at h
      rcases hprev : st.previous_text with _ | pr
      · simp only [sink_event_eos, hprev, Option.some.injEq, Prod.mk.injEq] at h
        obtain ⟨h1, -⟩ := h
        subst h1
        exact hInv
      · obtain ⟨ts, tx⟩ := pr
        rcases hf : st.format with _ | f
        · simp only [sink_event_eos, hprev, hf] at h
          exact Option.noConfusion h
        · simp only [sink_event_eos, hprev, hf, Option.some.injEq, Prod.mk.injEq] at h
          obtain ⟨h1, -⟩ := h
          subst h1
          intro hp
          simp at hp
    | stateChange t =>
      cases t with
      | readyToPaused =>
        simp only [applyOp, change_state, Option.some.injEq, Prod.mk.injEq] at h
        obtain ⟨h1, -⟩ := h
        subst h1
        intro hp
        simp [State.default] at hp
      | pausedToReady =>
        simp only [applyOp, change_state, Option.some.injEq, Prod.mk.injEq] at h
        obtain ⟨h1, -⟩ := h
        subst h1
        intro hp
        simp [State.default] at hp
      | other =>
        simp only [applyOp, change_state, Option.some.injEq, Prod.mk.injEq] at h
        obtain ⟨h1, -⟩ := h
        subst h1
        exact hInv
  · rcases hprev : st.previous_text with _ | pr
    · simp [sink_event_eos, hprev]
    · obtain ⟨ts, tx⟩ := pr
      have hfs : st.format.isSome = true := hInv (by simp [hprev])
      rcases hf : st.format with _ | f
      · rw [hf] at hfs
        cases hfs
      · simp [sink_event_eos, hprev, hf]

theorem c10_pending_implies_negotiated_witness :
    StateInv State.default ∧
    StateInv { format := State.default.format, wrote_header := State.default.wrote_header,
               caption_frame := CaptionFrame.default, previous_text := none,
               index := State.default.index } ∧
    (sink_event_eos State.default).isSome = true :=
  ⟨by intro hp; simp [State.default] at hp,
   (c10_pending_implies_negotiated demoOracle State.default Op.flushStop
      (by intro hp; simp [State.default] at hp)).1
     { format := State.default.format, wrote_header := State.default.wrote_header,
       caption_frame := CaptionFrame.default, previous_text := none,
       index := State.default.index } [] rfl,
   (c10_pending_implies_negotiated demoOracle State.default Op.flushStop
      (by intro hp; simp [State.default] at hp)).2⟩

end Cea608ToTt

namespace Cea608ToTt

/-! ## C3: one header, immediately before the first cue, only for Vtt -/

/-- The trace invariant: before the first emission the element has
produced nothing; afterwards the output trace is the one-time header
immediately followed by the first cue and then only cues (Vtt), or only
cues (Srt / Raw). -/
def TraceOk (st : State) (outs : List OutUnit) : Prop :=
  (st.wrote_header = false ∧ outs = []) ∨
  (st.wrote_header = true ∧ ∃ f, st.format = some f ∧
    ((f = Format.vtt ∧ ∃ hb rest, outs = OutUnit.header hb :: rest ∧ rest ≠ [] ∧
        rest.all OutUnit.isCue = true) ∨
     (f ≠ Format.vtt ∧ outs ≠ [] ∧ outs.all OutUnit.isCue = true)))

/-- One non-reset operation preserves the trace invariant. -/
theorem traceOk_step (o : CaptionOracle) (st : State) (op : Op)
    (st' : State) (new : List OutUnit) (outs : List OutUnit)
    (hnr : isFullReset op = false)
    (h : applyOp o st op = some (st', new))
    (hT : TraceOk st outs) : TraceOk st' (outs ++ new) := by
  rcases applyOp_shape o st op st' new hnr h with
    ⟨hnew, hw, -, hfp⟩ | ⟨f, ts, cb, hsf, hsf', hw, -, hnew⟩
  · subst hnew
    rw [List.append_nil]
    rcases hT with ⟨t1, t2⟩ | ⟨t1, f, t2, t3⟩
    · exact Or.inl ⟨by rw [hw, t1], t2⟩
    · refine Or.inr ⟨by rw [hw, t1], f, ?_, t3⟩
      rw [hfp (by rw [t2]; rfl), t2]
  · subst hnew
    rcases emission_block_shape st.wrote_header f ts cb with ⟨e1, e2, hb, eblk⟩ | ⟨e1, eblk⟩
    · rw [eblk]
      rcases hT with ⟨t1, t2⟩ | ⟨t1, -⟩
      · subst t2
        rw [List.nil_append]
        subst e2
        exact Or.inr ⟨hw, Format.vtt, hsf', Or.inl ⟨rfl, hb, [OutUnit.cue cb], rfl,
          by simp, by simp [OutUnit.isCue]⟩⟩
      · rw [t1] at e1
        cases e1
    · rw [eblk]
      rcases hT with ⟨t1, t2⟩ | ⟨t1, f0, t2, t3⟩
      · subst t2
        rw [List.nil_append]
        rcases e1 with e1 | e1
        · rw [t1] at e1
          cases e1
        · exact Or.inr ⟨hw, f, hsf', Or.inr ⟨e1, by simp, by simp [OutUnit.isCue]⟩⟩
      · have hff : f0 = f := by
          rw [t2] at hsf
          exact Option.some.inj hsf
        subst hff
        rcases t3 with ⟨u1, hb, rest, u2, u3, u4⟩ | ⟨u1, u2, u3⟩
        · subst u2
          refine Or.inr ⟨hw, f0, hsf', Or.inl ⟨u1, hb, rest ++ [OutUnit.cue cb], rfl,
            by simp, ?_⟩⟩
          simp [List.all_append, u4, OutUnit.isCue]
        · refine Or.inr ⟨hw, f0, hsf', Or.inr ⟨u1, by simp, ?_⟩⟩
          simp [List.all_append, u3, OutUnit.isCue]

/-- A reset-free sequence of operations preserves the trace invariant for
the accumulated output. -/
theorem traceOk_run (o : CaptionOracle) (ops : List Op) (st : State) (acc : List OutUnit)
    (st' : State) (outs : List OutUnit)
    (hnr : ∀ op ∈ ops, isFullReset op = false)
    (h : run o st ops = some (st', outs))
    (hT : TraceOk st acc) : TraceOk st' (acc ++ outs) := by
  induction ops generalizing st acc outs with
  | nil =>
    simp only [run, Option.some.injEq, Prod.mk.injEq] at h
    obtain ⟨h1, h2⟩ := h
    subst h1
    subst h2
    rw [List.append_nil]
    exact hT
  | cons op ops ih =>
    rcases ha : applyOp o st op with _ | pr
    · simp only [run, ha] at h
      exact Option.noConfusion h
    · obtain ⟨st1, new⟩ := pr
      rcases hr : run o st1 ops with _ | pr2
      · simp only [run, ha, hr] at h
        exact Option.noConfusion h
      · obtain ⟨st2, rest⟩ := pr2
        simp only [run, ha, hr, Option.some.injEq, Prod.mk.injEq] at h
        obtain ⟨h1, h2⟩ := h
        subst h1
        subst h2
        have hstep := traceOk_step o st op st1 new acc (hnr op (by simp)) ha hT
        have hrest := ih st1 (acc ++ new) rest
          (fun op' hop' => hnr op' (by simp [hop'])) hr hstep
        simpa [List.append_assoc] using hrest

/-- All-cue lists contain no header. -/
theorem all_cue_no_header (l : List OutUnit) (h : l.all OutUnit.isCue = true) :
    l.filter OutUnit.isHeader = [] := by
  rw [List.filter_eq_nil_iff]
  intro a ha
  have hc := List.all_eq_true.mp h a ha
  cases a with
  | header b => simp [OutUnit.isCue] at hc
  | cue b => simp [OutUnit.isHeader]

/-- C3: over any reset-free sequence of operations started from the
default state (with any decoder behaviour), the output trace with Vtt
negotiated is either empty or exactly one header unit immediately
followed by the first cue with only cues after it; with Srt or Raw (or
nothing) negotiated the trace consists of cues only, so no header is
ever emitted; in every case at most one header appears. -/
theorem c3_header_once_before_first_cue (o : CaptionOracle) (cf : CaptionFrame)
    (ops : List Op) (st' : State) (outs : List OutUnit)
    (hnr : ∀ op ∈ ops, isFullReset op = false)
    (h : run o { State.default with caption_frame := cf } ops = some (st', outs)) :
    (st'.format = some Format.vtt →
       outs = [] ∨ ∃ hb rest, outs = OutUnit.header hb :: rest ∧ rest ≠ [] ∧
         rest.all OutUnit.isCue = true) ∧
    (st'.format ≠ some Format.vtt → outs.all OutUnit.isCue = true) ∧
    (outs.filter OutUnit.isHeader).length ≤ 1 := by
  have hT0 : TraceOk { State.default with caption_frame := cf } [] := Or.inl ⟨rfl, rfl⟩
  have hT := traceOk_run o ops _ [] st' outs hnr h hT0
  rw [List.nil_append] at hT
  refine ⟨?_, ?_, ?_⟩
  · intro hv
    rcases hT with ⟨-, t2⟩ | ⟨-, f, t2, t3⟩
    · exact Or.inl t2
    · rcases t3 with ⟨-, hb, rest, u2, u3, u4⟩ | ⟨u1, -, -⟩
      · exact Or.inr ⟨hb, rest, u2, u3, u4⟩
      · rw [t2] at hv
        exact absurd (Option.some.inj hv) u1
  · intro hv
    rcases hT with ⟨-, t2⟩ | ⟨-, f, t2, t3⟩
    · subst t2
      rfl
    · rcases t3 with ⟨u1, hb, rest, u2, u3, u4⟩ | ⟨-, -, u3⟩
      · subst u1
        rw [t2] at hv
        exact absurd rfl hv
      · exact u3
  · rcases hT with ⟨-, t2⟩ | ⟨-, f, t2, t3⟩
    · subst t2
      simp
    · rcases t3 with ⟨-, hb, rest, u2, u3, u4⟩ | ⟨-, -, u3⟩
      · subst u2
        have hrest := all_cue_no_header rest u4
        simp [List.filter, OutUnit.isHeader, hrest]
      · simp [all_cue_no_header outs u3]

end Cea608ToTt

namespace Cea608ToTt

/-- A concrete reset-free operation sequence used by the trace witness:
negotiate Vtt, two Ready-producing buffers, end-of-stream. -/
def demo_ops : List Op :=
  [Op.caps ["application/x-subtitle-vtt"],
   Op.chain ⟨some 1000000000, [171, 205]⟩,
   Op.chain ⟨some 2500000000, [171, 205]⟩,
   Op.eos]

/-- The output trace of `demo_ops` under `demoOracle`. -/
def demo_outs : List OutUnit :=
  [OutUnit.header (create_vtt_header 1000000000),
   OutUnit.cue (create_vtt_buffer 1000000000 1500000000 "HELLO"),
   OutUnit.cue (create_vtt_buffer 2500000000 0 "WORLD")]

/-- The final state of `demo_ops` under `demoOracle`. -/
def demo_final : State :=
  { format := some Format.vtt, wrote_header := true,
    caption_frame := ⟨[(ccOf 171 205, 1000000000), (ccOf 171 205, 2500000000)]⟩,
    previous_text := none, index := 3 }

theorem c3_header_once_before_first_cue_witness :
    (demo_final.format = some Format.vtt →
       demo_outs = [] ∨ ∃ hb rest, demo_outs = OutUnit.header hb :: rest ∧ rest ≠ [] ∧
         rest.all OutUnit.isCue = true) ∧
    (demo_final.format ≠ some Format.vtt → demo_outs.all OutUnit.isCue = true) ∧
    (demo_outs.filter OutUnit.isHeader).length ≤ 1 :=
  c3_header_once_before_first_cue demoOracle CaptionFrame.default demo_ops
    demo_final demo_outs (by decide) (by decide)

end Cea608ToTt
